import Mathlib

/-!
Shallow embedding of the browser quiz client in `static/script.js`
(repository udaykiran1212/geography-quiz).

The script wires DOM controls to three network calls (`/get_question`,
`/check_answer`, `/get_history`).  Pure DOM-writing helpers of the script
are embedded as pure functions on an explicit `ClientState`; the
event-driven runtime (clicks arriving only on enabled and visible
controls, promise settlement callbacks) is embedded as a step function on
`ClientState` together with a list of pending network operations.
-/

namespace GeographyQuiz

/-- JSON payload of `GET /get_question` (script.js lines 72-88): either a
question object or an object with an `error` field. -/
structure QuestionPayload where
  error : Option String
  question : String
  options : List String
  correct_answer : String
  hint : Option String
  difficulty : String
  image : Option String
deriving Repr, DecidableEq

/-- JSON payload of `POST /check_answer` (script.js lines 225-235). -/
structure AnswerResult where
  is_correct : Bool
  correct_answer : String
  score : Nat
  total_questions : Nat
deriving Repr, DecidableEq

/-- One entry of the `history` array of `GET /get_history`
(script.js lines 298-312). -/
structure HistoryEntry where
  question : String
  user_answer : String
  correct_answer : String
  difficulty : String
  timestamp : String
  is_correct : Bool
deriving Repr, DecidableEq

/-- JSON payload of `GET /get_history` (script.js lines 289-292). -/
structure HistoryData where
  history : List HistoryEntry
  score : Nat
  total_questions : Nat
deriving Repr, DecidableEq

/-- JavaScript truthiness of an optional string field: `undefined`/`null`
and the empty string are falsy. -/
def strTruthy : Option String → Bool
  | none => false
  | some s => s != ""

/-- One option button created by `createOptionButtons`
(script.js lines 198-207): its text, its `disabled` attribute, and the two
CSS marking classes `correct-option` / `incorrect-option`. -/
structure OptionButton where
  text : String
  disabled : Bool
  correctClass : Bool
  incorrectClass : Bool
deriving Repr, DecidableEq

/-- `createOptionButtons` (script.js lines 198-207): one enabled, unmarked
button per option string. -/
def createOptionButtons (options : List String) : List OptionButton :=
  options.map fun o =>
    { text := o, disabled := false, correctClass := false, incorrectClass := false }

/-- The option-marking loop of `showResultFeedback` (script.js lines
253-261): buttons whose text equals the server-reported correct answer get
`correct-option`; otherwise the selected button gets `incorrect-option`
when the answer was wrong; every button is disabled. -/
def showResultFeedbackMark (data : AnswerResult) (selectedOption : String)
    (buttons : List OptionButton) : List OptionButton :=
  buttons.map fun b =>
    let b := if b.text == data.correct_answer then { b with correctClass := true }
      else if b.text == selectedOption && !data.is_correct then { b with incorrectClass := true }
      else b
    { b with disabled := true }

/-- `highlightAnswers` (script.js lines 264-272). -/
def highlightAnswers (correctAnswer selectedOption : String)
    (buttons : List OptionButton) : List OptionButton :=
  buttons.map fun b =>
    if b.text == correctAnswer then { b with correctClass := true }
    else if b.text == selectedOption then { b with incorrectClass := true }
    else b

/-- The result message of `showResultFeedback` (script.js lines 244-246). -/
def resultMessage (data : AnswerResult) : String :=
  if data.is_correct then "✅ Correct! The answer is " ++ data.correct_answer ++ "."
  else "❌ Incorrect. The correct answer is " ++ data.correct_answer ++ "."

/-- Rendered view of one history item, the data displayed by the template
of `renderHistory` (script.js lines 300-309): CSS class from `is_correct`,
question text, user answer, correct answer, difficulty badge and the
human-readable time (`new Date(timestamp).toLocaleTimeString()`, a browser
builtin passed in as `fmt`). -/
structure HistoryItemView where
  cssCorrect : Bool
  question : String
  userAnswer : String
  correctAnswer : String
  difficulty : String
  timeText : String
deriving Repr, DecidableEq

/-- Rendering of one history entry (template of script.js lines 300-309). -/
def historyItemView (fmt : String → String) (item : HistoryEntry) : HistoryItemView :=
  { cssCorrect := item.is_correct
    question := item.question
    userAnswer := item.user_answer
    correctAnswer := item.correct_answer
    difficulty := item.difficulty
    timeText := fmt item.timestamp }

/-- Content of the history list element after `renderHistory`. -/
inductive HistoryListView where
  | noHistory
  | items (l : List HistoryItemView)
deriving Repr, DecidableEq

/-- `Array.prototype.slice()` with no arguments: a shallow copy. -/
def jsSlice {α : Type} (l : List α) : List α := l.map id

/-- `renderHistory` (script.js lines 298-312): when the history is
nonempty, render `data.history.slice().reverse()` item by item; otherwise
show the "No quiz history yet" element. -/
def renderHistory (fmt : String → String) (data : HistoryData) : HistoryListView :=
  if data.history.length != 0 then
    .items (((jsSlice data.history).reverse).map (historyItemView fmt))
  else .noHistory

/-- View of the question-image container as maintained synchronously by
the controller (`showImagePlaceholder` / the synchronous part of
`displayImage`); the asynchronous image-load lifecycle is embedded
separately as `ImgMachine`. -/
inductive ImgView where
  | placeholder
  | loading (url : String)
deriving Repr, DecidableEq

/-- Content of the history panel element. -/
inductive HistoryView where
  | initial
  | failed
  | loaded (d : HistoryData)
deriving Repr, DecidableEq

/-- A network operation of the kinds counted by the spec that has been
started and has not yet settled. -/
inductive PendingOp where
  | fetchQ
  | submitA (selectedOption : String)
deriving Repr, DecidableEq

/-- Settlement of the `/get_question` fetch: a rejected request, a non-OK
response, or a JSON payload. -/
inductive FetchResult where
  | reject
  | notOk
  | payload (p : QuestionPayload)
deriving Repr, DecidableEq

/-- `true` on the settlements that the `.catch` of `loadNextQuestion`
handles: rejection, non-OK response, or a payload whose `error` field is
truthy (script.js lines 74-82, 90-93). -/
def FetchResult.failed : FetchResult → Bool
  | .reject => true
  | .notOk => true
  | .payload p => strTruthy p.error

/-- Settlement of the `/check_answer` fetch. -/
inductive SubmitResult where
  | reject
  | notOk
  | payload (r : AnswerResult)
deriving Repr, DecidableEq

/-- Settlement of the `/get_history` fetch. -/
inductive HistoryResult where
  | reject
  | notOk
  | payload (d : HistoryData)
deriving Repr, DecidableEq

/-- The page state owned by the controller: the two variables
`currentQuestion` and `isLoading` (script.js lines 21-22), the DOM state
the script reads or writes (`disabled` attributes, `hidden` classes, text
content, the option buttons, the displayed score, the history panel, the
image container, the label of the next button), plus the list of pending
question-fetch / answer-submission operations of the event harness. -/
structure ClientState where
  currentQuestion : Option QuestionPayload
  isLoading : Bool
  startDisabled : Bool
  nextDisabled : Bool
  hintDisabled : Bool
  startHidden : Bool
  questionHidden : Bool
  resultHidden : Bool
  hintHidden : Bool
  questionText : String
  resultText : String
  nextLabel : String
  hintText : String
  options : List OptionButton
  scoreDisplay : Nat
  totalQuestionsDisplay : Nat
  historyView : HistoryView
  image : ImgView
  pending : List PendingOp
deriving Repr, DecidableEq

/-- `showImagePlaceholder` (script.js lines 189-196), as it affects the
image container view. -/
def showImagePlaceholderS (s : ClientState) : ClientState :=
  { s with image := .placeholder }

/-- Synchronous part of `displayImage` (script.js lines 123-138, 186):
clear the container; no URL means an immediate placeholder, otherwise a
spinner is shown and the load starts. -/
def displayImageSync (url : String) (s : ClientState) : ClientState :=
  if url == "" then { s with image := .placeholder }
  else { s with image := .loading url }

/-- `resetHint` (script.js lines 350-353). -/
def resetHint (s : ClientState) : ClientState :=
  { s with hintHidden := true, hintDisabled := false }

/-- `displayQuestion` (script.js lines 106-121). -/
def displayQuestion (data : QuestionPayload) (s : ClientState) : ClientState :=
  let s := { s with questionText := data.question }
  let s := if strTruthy data.image then displayImageSync ((data.image).getD "") s
    else showImagePlaceholderS s
  let s := { s with options := createOptionButtons data.options }
  resetHint s

/-- `resetUIState` (script.js lines 319-328). -/
def resetUIState (s : ClientState) : ClientState :=
  showImagePlaceholderS
    { s with questionHidden := true, resultHidden := true, hintHidden := true,
             hintDisabled := false, options := [], questionText := "", resultText := "" }

/-- `disableButtons` (script.js lines 360-364). -/
def disableButtons (s : ClientState) : ClientState :=
  { s with startDisabled := true, hintDisabled := true, nextDisabled := true }

/-- `enableButtons` (script.js lines 366-370); note that it leaves the
next button disabled. -/
def enableButtons (s : ClientState) : ClientState :=
  { s with startDisabled := false, hintDisabled := false, nextDisabled := true }

/-- `showLoadingState` (script.js lines 330-335). -/
def showLoadingState (s : ClientState) : ClientState :=
  showImagePlaceholderS
    (disableButtons { s with questionText := "Loading question...", questionHidden := false })

/-- `showErrorState` (script.js lines 343-348). -/
def showErrorState (s : ClientState) : ClientState :=
  enableButtons
    { s with resultText := "An error occurred. Please try again.",
             resultHidden := false, nextLabel := "Try Again" }

/-- `disableOptions` (script.js lines 355-358). -/
def disableOptions (s : ClientState) : ClientState :=
  { s with options := s.options.map fun b => { b with disabled := true } }

/-- `showHint` (script.js lines 274-279); `currentQuestion?.hint` is the
optional chain, falsy when the question is absent, the hint is absent, or
the hint is the empty string. -/
def showHint (s : ClientState) : ClientState :=
  match s.currentQuestion.bind QuestionPayload.hint with
  | none => s
  | some h =>
      if h == "" then s
      else { s with hintText := h, hintHidden := false, hintDisabled := true }

/-- `showResultFeedback` (script.js lines 243-262). -/
def showResultFeedback (data : AnswerResult) (selectedOption : String)
    (s : ClientState) : ClientState :=
  { s with resultText := resultMessage data, resultHidden := false,
           options := showResultFeedbackMark data selectedOption s.options }

/-- `highlightAnswers` applied to the page state (script.js lines 264-272). -/
def highlightAnswersS (correctAnswer selectedOption : String) (s : ClientState) : ClientState :=
  { s with options := highlightAnswers correctAnswer selectedOption s.options }

/-- `updateScoreDisplay` (script.js lines 372-375). -/
def updateScoreDisplay (data : AnswerResult) (s : ClientState) : ClientState :=
  { s with scoreDisplay := data.score, totalQuestionsDisplay := data.total_questions }

/-- `updateScoreDisplays` (script.js lines 314-317). -/
def updateScoreDisplays (data : HistoryData) (s : ClientState) : ClientState :=
  { s with scoreDisplay := data.score, totalQuestionsDisplay := data.total_questions }

/-- Effect of `renderHistory` on the page (script.js lines 298-312); the
displayed markup is the pure function `renderHistory` of the stored data. -/
def renderHistoryS (data : HistoryData) (s : ClientState) : ClientState :=
  { s with historyView := .loaded data }

/-- The local fallback questions (script.js lines 25-50). -/
def localFallbackQuestions : List QuestionPayload :=
  [ { error := none
      question := "Which river is the longest in the world?"
      options := ["Amazon", "Nile", "Yangtze", "Mississippi"]
      correct_answer := "Nile"
      hint := some "This river flows through northeastern Africa."
      difficulty := "medium"
      image := none },
    { error := none
      question := "What is the capital of Japan?"
      options := ["Kyoto", "Osaka", "Tokyo", "Hiroshima"]
      correct_answer := "Tokyo"
      hint := some "This city hosted the 2020 Summer Olympics."
      difficulty := "easy"
      image := none },
    { error := none
      question := "Which country is known as the 'Land of the Rising Sun'?"
      options := ["China", "South Korea", "Japan", "Thailand"]
      correct_answer := "Japan"
      hint := some "This country's flag features a red circle on a white background."
      difficulty := "easy"
      image := none } ]

/-- `getLocalFallbackQuestion` (script.js lines 100-104);
`Math.floor(Math.random() * length)` is passed in as `randomIndex`. -/
def getLocalFallbackQuestion (randomIndex : Nat) (s : ClientState) : ClientState :=
  match localFallbackQuestions.get? (randomIndex % localFallbackQuestions.length) with
  | some fallback => displayQuestion fallback { s with currentQuestion := some fallback }
  | none => s

/-- Synchronous part of `loadNextQuestion` (script.js lines 65-72): guard
on the busy flag, set it, reset the UI, show the loading state, start the
`/get_question` fetch. -/
def loadNextQuestion (s : ClientState) : ClientState :=
  if s.isLoading then s
  else
    let s := { s with isLoading := true }
    let s := showLoadingState (resetUIState s)
    { s with pending := s.pending ++ [.fetchQ] }

/-- `startQuiz` (script.js lines 60-63). -/
def startQuiz (s : ClientState) : ClientState :=
  if s.isLoading then s else loadNextQuestion s

/-- Settlement of the `/get_question` fetch (script.js lines 73-97): the
`.then` chain, the `.catch`, and the `.finally`, which run back to back as
microtasks with no intervening UI event. -/
def fetchSettled (r : FetchResult) (s : ClientState) : ClientState :=
  let s := match r with
    | .reject => showErrorState s
    | .notOk => showErrorState s
    | .payload data =>
        if strTruthy data.error then showErrorState s
        else
          let s := displayQuestion data { s with currentQuestion := some data }
          { s with startHidden := true, questionHidden := false,
                   resultHidden := true, nextDisabled := true }
  enableButtons { s with isLoading := false }

/-- Synchronous part of `selectAnswer` (script.js lines 209-218): guard on
the busy flag, disable the options, start the `/check_answer` fetch. -/
def selectAnswer (selectedOption : String) (s : ClientState) : ClientState :=
  if s.isLoading then s
  else
    let s := disableOptions s
    { s with pending := s.pending ++ [.submitA selectedOption] }

/-- Settlement of the `/check_answer` fetch (script.js lines 219-240);
on success `loadHistory()` also fires (history settlements are separate
events of the harness). -/
def submitSettled (selectedOption : String) (r : SubmitResult) (s : ClientState) : ClientState :=
  match r with
  | .reject => showErrorState s
  | .notOk => showErrorState s
  | .payload data =>
      let s := updateScoreDisplay data s
      let s := showResultFeedback data selectedOption s
      let s := highlightAnswersS data.correct_answer selectedOption s
      let s := { s with questionHidden := false }
      let s := disableOptions s
      { s with hintDisabled := true, nextDisabled := false }

/-- Settlement of the `/get_history` fetch (script.js lines 281-296). -/
def loadHistorySettled (r : HistoryResult) (s : ClientState) : ClientState :=
  match r with
  | .payload data => updateScoreDisplays data (renderHistoryS data s)
  | .reject => { s with historyView := .failed }
  | .notOk => { s with historyView := .failed }

/-- Remove the first pending question fetch, when one is pending. -/
def takeFetch : List PendingOp → Option (List PendingOp)
  | [] => none
  | .fetchQ :: rest => some rest
  | .submitA a :: rest => (takeFetch rest).map (fun l => .submitA a :: l)

/-- Remove the first pending answer submission, when one is pending,
returning its selected option. -/
def takeSubmit : List PendingOp → Option (String × List PendingOp)
  | [] => none
  | .submitA a :: rest => some (a, rest)
  | .fetchQ :: rest => (takeSubmit rest).map (fun x => (x.1, .fetchQ :: x.2))

/-- An event of the page's event loop: a click delivered to a control, or
the settlement of one of the three network calls. -/
inductive Event where
  | clickStart
  | clickNext
  | clickHint
  | clickOption (i : Nat)
  | fetchDone (r : FetchResult)
  | submitDone (r : SubmitResult)
  | historyDone (r : HistoryResult)
deriving Repr, DecidableEq

/-- One step of the event loop.  A click is deliverable only to an enabled
control (the DOM fires no click on a `disabled` button); for the start
button it must also be visible — the repository's `index.html` is not
under `src/`, so, modelled from the spec: per the spec's UI flow the start
control lives in the start panel (`start-container`), which the script
hides once a question is shown, and a control inside a hidden panel cannot
be clicked.  A settlement event is a no-op when no operation of its kind
is pending; history settlements may arrive at any time (an
over-approximation: the harness does not track in-flight history calls,
which the spec does not count). -/
def step (s : ClientState) (e : Event) : ClientState :=
  match e with
  | .clickStart =>
      if s.startHidden || s.startDisabled then s else startQuiz s
  | .clickNext =>
      if s.nextDisabled then s else loadNextQuestion s
  | .clickHint =>
      if s.hintDisabled then s else showHint s
  | .clickOption i =>
      match s.options.get? i with
      | none => s
      | some b => if b.disabled then s else selectAnswer b.text s
  | .fetchDone r =>
      match takeFetch s.pending with
      | none => s
      | some rest => fetchSettled r { s with pending := rest }
  | .submitDone r =>
      match takeSubmit s.pending with
      | none => s
      | some x => submitSettled x.1 r { s with pending := x.2 }
  | .historyDone r => loadHistorySettled r s

/-- A page state as delivered by the initial HTML: no script-started
operation pending, no option buttons yet, the busy flag down, no current
question.  Button and container attributes of the initial markup are left
unconstrained. -/
def InitialDOM (s : ClientState) : Prop :=
  s.pending = [] ∧ s.options = [] ∧ s.isLoading = false ∧ s.currentQuestion = none

/-- States the event loop can reach from some initial page state. -/
inductive Reachable : ClientState → Prop where
  | init (s : ClientState) : InitialDOM s → Reachable s
  | step (s : ClientState) (e : Event) : Reachable s → Reachable (step s e)

/-- A concrete initial page state. -/
def initState : ClientState :=
  { currentQuestion := none, isLoading := false, startDisabled := false,
    nextDisabled := false, hintDisabled := false, startHidden := false,
    questionHidden := true, resultHidden := true, hintHidden := true,
    questionText := "", resultText := "", nextLabel := "Next Question",
    hintText := "", options := [], scoreDisplay := 0, totalQuestionsDisplay := 0,
    historyView := .initial, image := .placeholder, pending := [] }

/-- A `/get_question` payload carrying a server-reported error field, as
in the spec's example `{error: "rate limited"}`. -/
def rateLimitedPayload : QuestionPayload :=
  { error := some "rate limited", question := "", options := [], correct_answer := "",
    hint := none, difficulty := "", image := none }

/-- The question of the spec's worked example. -/
def japanPayload : QuestionPayload :=
  { error := none
    question := "Capital of Japan?"
    options := ["Kyoto", "Osaka", "Tokyo", "Hiroshima"]
    correct_answer := "Tokyo"
    hint := some "This city hosted the 2020 Summer Olympics."
    difficulty := "easy"
    image := none }

/-- The `/check_answer` reply of the spec's worked example: wrong answer,
correct answer "Tokyo". -/
def tokyoWrongResult : AnswerResult :=
  { is_correct := false, correct_answer := "Tokyo", score := 0, total_questions := 1 }

/-- State after clicking start and receiving the payload
`{error: "rate limited"}` from `/get_question`. -/
def fetchFailState : ClientState :=
  step (step initState Event.clickStart) (Event.fetchDone (FetchResult.payload rateLimitedPayload))

/-- State after clicking start and receiving the example question. -/
def japanLoadedState : ClientState :=
  step (step initState Event.clickStart) (Event.fetchDone (FetchResult.payload japanPayload))

/-- State after additionally clicking the second option button ("Osaka"). -/
def osakaPickedState : ClientState :=
  step japanLoadedState (Event.clickOption 1)

/-- State after the `/check_answer` request of the picked answer is
rejected (network failure). -/
def submitRejectedState : ClientState :=
  step osakaPickedState (Event.submitDone SubmitResult.reject)

/-- State after `/check_answer` succeeds with the example reply. -/
def answerCheckedState : ClientState :=
  step osakaPickedState (Event.submitDone (SubmitResult.payload tokyoWrongResult))

/-- A concrete `/get_history` payload with two entries. -/
def sampleHistory : HistoryData :=
  { history :=
      [ { question := "Capital of Japan?", user_answer := "Osaka", correct_answer := "Tokyo",
          difficulty := "easy", timestamp := "2024-01-01T10:00:00Z", is_correct := false },
        { question := "Which river is the longest in the world?", user_answer := "Nile",
          correct_answer := "Nile", difficulty := "medium",
          timestamp := "2024-01-01T10:05:00Z", is_correct := true } ]
    score := 1
    total_questions := 2 }

/-- One child node of the question-image container. -/
inductive ImgElem where
  | spinner
  | imageElem (url : String)
  | placeholderElem
deriving Repr, DecidableEq

/-- State of one `displayImage` invocation (script.js lines 123-187): the
container's children, the `src` attribute of the created `Image` element
(`none` when no element was created), whether the 5000 ms timeout is still
armed, and whether the load already settled (fired `onload`/`onerror`). -/
structure ImgMachine where
  container : List ImgElem
  imgSrc : Option String
  timeoutArmed : Bool
  settled : Bool
deriving Repr, DecidableEq

/-- The image-load timeout of `displayImage` in milliseconds
(script.js line 164). -/
def imageLoadTimeoutMs : Nat := 5000

/-- Entry of `displayImage` (script.js lines 123-138, 158, 186): clear the
container; with no URL show the placeholder immediately and create no
image; otherwise append the loading spinner, create the image with the
timeout-aware handlers (the second `onload`/`onerror` pair, which
overwrites the first), arm the timeout, and set `src` to start the load. -/
def displayImage (imageUrl : String) : ImgMachine :=
  if imageUrl == "" then
    { container := [.placeholderElem], imgSrc := none, timeoutArmed := false, settled := true }
  else
    { container := [.spinner], imgSrc := some imageUrl, timeoutArmed := true, settled := false }

/-- Asynchronous events of one image load. -/
inductive ImgEvent where
  | load
  | error
  | timeout
deriving Repr, DecidableEq

/-- One asynchronous step of the image load: the timeout-aware `onload` /
`onerror` handlers (script.js lines 167-183) and the timeout handler
(script.js lines 158-164).  Modelled browser semantics: a `load`/`error`
event fires only while the element's `src` is a non-empty URL and the load
has not already settled — clearing `src` aborts the pending load, which is
what the timeout handler relies on ("Cancel the image load",
script.js line 162). -/
def imgStep (m : ImgMachine) (e : ImgEvent) : ImgMachine :=
  match e with
  | .load =>
      match m.imgSrc with
      | none => m
      | some u =>
          if u == "" || m.settled then m
          else
            { m with container := (m.container.erase .spinner) ++ [.imageElem u],
                     timeoutArmed := false, settled := true }
  | .error =>
      match m.imgSrc with
      | none => m
      | some u =>
          if u == "" || m.settled then m
          else
            { m with container := [.placeholderElem], timeoutArmed := false, settled := true }
  | .timeout =>
      if m.timeoutArmed then
        if m.container.contains .spinner then
          { m with container := [.placeholderElem], imgSrc := some "", timeoutArmed := false }
        else { m with timeoutArmed := false }
      else m

/-- The inductive invariant of the event loop: at most one counted
operation pending; the busy flag is up exactly while a question fetch is
pending; while a fetch is pending there are no option buttons and the
start and next controls are disabled; while a submission is pending the
start panel is hidden, the next control is disabled and every option is
disabled; and whenever some option is enabled the start panel is hidden
and the next control is disabled. -/
def Inv (s : ClientState) : Prop :=
  s.pending.length ≤ 1
  ∧ (s.isLoading = true ↔ PendingOp.fetchQ ∈ s.pending)
  ∧ (PendingOp.fetchQ ∈ s.pending →
      s.options = [] ∧ s.startDisabled = true ∧ s.nextDisabled = true)
  ∧ (∀ a, PendingOp.submitA a ∈ s.pending →
      s.startHidden = true ∧ s.nextDisabled = true ∧ ∀ b ∈ s.options, b.disabled = true)
  ∧ ((∃ b ∈ s.options, b.disabled = false) →
      s.startHidden = true ∧ s.nextDisabled = true)

/-- A list of length at most one that contains `x` is `[x]`. -/
theorem length_le_one_eq_singleton {α : Type} {l : List α} (h1 : l.length ≤ 1)
    {x : α} (hx : x ∈ l) : l = [x] := by
  match l with
  | [] => cases hx
  | [y] =>
      rw [List.mem_singleton] at hx
      rw [hx]
  | a :: b :: t => simp at h1

/-- If `takeFetch` finds a pending fetch, one was in the list. -/
theorem takeFetch_mem {l : List PendingOp} {rest : List PendingOp}
    (h : takeFetch l = some rest) : PendingOp.fetchQ ∈ l := by
  induction l generalizing rest with
  | nil => simp [takeFetch] at h
  | cons x t ih =>
      cases x with
      | fetchQ => exact List.mem_cons_self _ _
      | submitA a =>
          simp [takeFetch] at h
          obtain ⟨r, hr, _⟩ := h
          exact List.mem_cons_of_mem _ (ih hr)

/-- If `takeSubmit` finds a pending submission, one was in the list. -/
theorem takeSubmit_mem {l : List PendingOp} {x : String × List PendingOp}
    (h : takeSubmit l = some x) : PendingOp.submitA x.1 ∈ l := by
  induction l generalizing x with
  | nil => simp [takeSubmit] at h
  | cons y t ih =>
      cases y with
      | submitA a =>
          simp [takeSubmit] at h
          rw [← h]
          exact List.mem_cons_self _ _
      | fetchQ =>
          simp [takeSubmit] at h
          obtain ⟨r, hr, hrec, hx⟩ := h
          have hm := ih hrec
          rw [← hx]
          exact List.mem_cons_of_mem _ hm

/-- A list of pending operations with no fetch and no submission is empty. -/
theorem pending_eq_nil {l : List PendingOp} (hf : PendingOp.fetchQ ∉ l)
    (hs : ∀ a, PendingOp.submitA a ∉ l) : l = [] := by
  cases l with
  | nil => rfl
  | cons x t =>
      cases x with
      | fetchQ => exact absurd (List.mem_cons_self _ _) hf
      | submitA a => exact absurd (List.mem_cons_self _ _) (hs a)

/-- `displayQuestion` does not touch the pending operations. -/
@[simp] theorem displayQuestion_pending (data : QuestionPayload) (s : ClientState) :
    (displayQuestion data s).pending = s.pending := by
  simp only [displayQuestion, displayImageSync, showImagePlaceholderS, resetHint]
  all_goals first
  | rfl
  | (split <;> (try split) <;> rfl)

/-- After `displayQuestion` the options are the freshly created buttons. -/
@[simp] theorem displayQuestion_options (data : QuestionPayload) (s : ClientState) :
    (displayQuestion data s).options = createOptionButtons data.options := by
  simp only [displayQuestion, displayImageSync, showImagePlaceholderS, resetHint]
  all_goals first
  | rfl
  | (split <;> (try split) <;> rfl)

/-- `displayQuestion` does not touch the busy flag. -/
@[simp] theorem displayQuestion_isLoading (data : QuestionPayload) (s : ClientState) :
    (displayQuestion data s).isLoading = s.isLoading := by
  simp only [displayQuestion, displayImageSync, showImagePlaceholderS, resetHint]
  all_goals first
  | rfl
  | (split <;> (try split) <;> rfl)

/-- `displayQuestion` does not touch the start panel's visibility. -/
@[simp] theorem displayQuestion_startHidden (data : QuestionPayload) (s : ClientState) :
    (displayQuestion data s).startHidden = s.startHidden := by
  simp only [displayQuestion, displayImageSync, showImagePlaceholderS, resetHint]
  all_goals first
  | rfl
  | (split <;> (try split) <;> rfl)

/-- `displayQuestion` does not touch the start button. -/
@[simp] theorem displayQuestion_startDisabled (data : QuestionPayload) (s : ClientState) :
    (displayQuestion data s).startDisabled = s.startDisabled := by
  simp only [displayQuestion, displayImageSync, showImagePlaceholderS, resetHint]
  all_goals first
  | rfl
  | (split <;> (try split) <;> rfl)

/-- `displayQuestion` does not touch the next button. -/
@[simp] theorem displayQuestion_nextDisabled (data : QuestionPayload) (s : ClientState) :
    (displayQuestion data s).nextDisabled = s.nextDisabled := by
  simp only [displayQuestion, displayImageSync, showImagePlaceholderS, resetHint]
  all_goals first
  | rfl
  | (split <;> (try split) <;> rfl)

/-- `displayQuestion` does not touch the stored current question. -/
@[simp] theorem displayQuestion_currentQuestion (data : QuestionPayload) (s : ClientState) :
    (displayQuestion data s).currentQuestion = s.currentQuestion := by
  simp only [displayQuestion, displayImageSync, showImagePlaceholderS, resetHint]
  all_goals first
  | rfl
  | (split <;> (try split) <;> rfl)

/-- Initial page states satisfy the invariant. -/
theorem inv_init {s : ClientState} (h : InitialDOM s) : Inv s := by
  obtain ⟨hp, ho, hl, _⟩ := h
  refine ⟨by simp [hp], by simp [hp, hl], by simp [hp], by simp [hp], by simp [ho]⟩

/-- Every event preserves the invariant. -/
theorem inv_step (s : ClientState) (e : Event) (h : Inv s) : Inv (step s e) := by
  obtain ⟨h1, h2, h3, h4, h5⟩ := h
  cases e with
  | clickStart =>
      simp only [step]
      by_cases hg : (s.startHidden || s.startDisabled) = true
      · rw [if_pos hg]; exact ⟨h1, h2, h3, h4, h5⟩
      · rw [if_neg hg]
        rw [Bool.or_eq_true, not_or] at hg
        have hsh : s.startHidden = false := by
          cases hB : s.startHidden
          · rfl
          · exact absurd hB hg.1
        unfold startQuiz loadNextQuestion
        by_cases hl : s.isLoading = true
        · rw [if_pos hl]; exact ⟨h1, h2, h3, h4, h5⟩
        · rw [if_neg hl, if_neg hl]
          have hf : PendingOp.fetchQ ∉ s.pending := fun hm => absurd (h2.mpr hm) hl
          have hsub : ∀ a, PendingOp.submitA a ∉ s.pending := fun a hm => by
            rw [(h4 a hm).1] at hsh; cases hsh
          have hp : s.pending = [] := pending_eq_nil hf hsub
          refine ⟨?_, ?_, ?_, ?_, ?_⟩ <;>
            simp [showLoadingState, resetUIState, disableButtons, showImagePlaceholderS, hp]
  | clickNext =>
      simp only [step]
      by_cases hg : s.nextDisabled = true
      · rw [if_pos hg]; exact ⟨h1, h2, h3, h4, h5⟩
      · rw [if_neg hg]
        unfold loadNextQuestion
        by_cases hl : s.isLoading = true
        · rw [if_pos hl]; exact ⟨h1, h2, h3, h4, h5⟩
        · rw [if_neg hl]
          have hf : PendingOp.fetchQ ∉ s.pending := fun hm => absurd (h2.mpr hm) hl
          have hsub : ∀ a, PendingOp.submitA a ∉ s.pending := fun a hm =>
            absurd (h4 a hm).2.1 hg
          have hp : s.pending = [] := pending_eq_nil hf hsub
          refine ⟨?_, ?_, ?_, ?_, ?_⟩ <;>
            simp [showLoadingState, resetUIState, disableButtons, showImagePlaceholderS, hp]
  | clickHint =>
      simp only [step]
      by_cases hg : s.hintDisabled = true
      · rw [if_pos hg]; exact ⟨h1, h2, h3, h4, h5⟩
      · rw [if_neg hg]
        unfold showHint
        split

        · exact ⟨h1, h2, h3, h4, h5⟩
        · split
          · exact ⟨h1, h2, h3, h4, h5⟩
          · exact ⟨h1, h2, h3, h4, h5⟩
  | clickOption i =>
      simp only [step]
      cases hget : s.options.get? i with
      | none => exact ⟨h1, h2, h3, h4, h5⟩
      | some b =>
          show Inv (if b.disabled = true then s else selectAnswer b.text s)
          by_cases hbd : b.disabled = true
          · rw [if_pos hbd]; exact ⟨h1, h2, h3, h4, h5⟩
          · rw [if_neg hbd]
            have hbd' : b.disabled = false := by
              cases hB : b.disabled
              · rfl
              · exact absurd hB hbd
            have hbmem : b ∈ s.options := List.get?_mem hget
            have hJ := h5 ⟨b, hbmem, hbd'⟩
            unfold selectAnswer
            by_cases hl : s.isLoading = true
            · rw [if_pos hl]; exact ⟨h1, h2, h3, h4, h5⟩
            · rw [if_neg hl]
              have hf : PendingOp.fetchQ ∉ s.pending := fun hm => absurd (h2.mpr hm) hl
              have hsub : ∀ a, PendingOp.submitA a ∉ s.pending := fun a hm => by
                have hd := (h4 a hm).2.2 b hbmem
                rw [hd] at hbd'; cases hbd'
              have hp : s.pending = [] := pending_eq_nil hf hsub
              have hl' : s.isLoading = false := by
                cases hB : s.isLoading
                · rfl
                · exact absurd hB hl
              refine ⟨?_, ?_, ?_, ?_, ?_⟩ <;>
                simp [disableOptions, hp, hl', hJ.1, hJ.2, List.mem_map]
  | fetchDone r =>
      simp only [step]
      cases htf : takeFetch s.pending with
      | none => exact ⟨h1, h2, h3, h4, h5⟩
      | some rest =>
          have hmem := takeFetch_mem htf
          have hp : s.pending = [PendingOp.fetchQ] := length_le_one_eq_singleton h1 hmem
          rw [hp] at htf
          simp only [takeFetch, Option.some.injEq] at htf
          subst htf
          have hopt : s.options = [] := (h3 hmem).1
          cases r with
          | reject =>
              refine ⟨?_, ?_, ?_, ?_, ?_⟩ <;>
                simp [fetchSettled, showErrorState, enableButtons, hopt]
          | notOk =>
              refine ⟨?_, ?_, ?_, ?_, ?_⟩ <;>
                simp [fetchSettled, showErrorState, enableButtons, hopt]
          | payload data =>
              by_cases herr : strTruthy data.error = true
              · refine ⟨?_, ?_, ?_, ?_, ?_⟩ <;>
                  simp [fetchSettled, showErrorState, enableButtons, herr, hopt]
              · refine ⟨?_, ?_, ?_, ?_, ?_⟩ <;>
                  simp [fetchSettled, enableButtons, herr]
  | submitDone r =>
      simp only [step]
      cases hts : takeSubmit s.pending with
      | none => exact ⟨h1, h2, h3, h4, h5⟩
      | some x =>
          have hmem := takeSubmit_mem hts
          have hp : s.pending = [PendingOp.submitA x.1] := length_le_one_eq_singleton h1 hmem
          rw [hp] at hts
          simp only [takeSubmit, Option.some.injEq] at hts
          have hrest : x.2 = [] := by
            rw [← hts]
          have hload : s.isLoading = false := by
            cases hl : s.isLoading
            · rfl
            · have := h2.mp hl
              rw [hp] at this
              simp at this
          have hdis : ∀ b ∈ s.options, b.disabled = true := (h4 x.1 hmem).2.2
          cases r with
          | reject =>
              refine ⟨?_, ?_, ?_, ?_, ?_⟩ <;>
                simp_all [submitSettled, showErrorState, enableButtons]
          | notOk =>
              refine ⟨?_, ?_, ?_, ?_, ?_⟩ <;>
                simp_all [submitSettled, showErrorState, enableButtons]
          | payload data =>
              refine ⟨?_, ?_, ?_, ?_, ?_⟩ <;>
                simp_all [submitSettled, updateScoreDisplay, showResultFeedback,
                  highlightAnswersS, disableOptions, List.mem_map]
  | historyDone r =>
      cases r with
      | reject => exact ⟨h1, h2, h3, h4, h5⟩
      | notOk => exact ⟨h1, h2, h3, h4, h5⟩
      | payload data => exact ⟨h1, h2, h3, h4, h5⟩

/-- Every reachable state satisfies the invariant. -/
theorem reachable_inv {s : ClientState} (h : Reachable s) : Inv s := by
  induction h with
  | init s hi => exact inv_init hi
  | step s e _ ih => exact inv_step s e ih

/-- The `.finally` of `loadNextQuestion` lowers the busy flag however the
fetch settled. -/
theorem fetchSettled_isLoading (r : FetchResult) (s : ClientState) :
    (fetchSettled r s).isLoading = false := rfl

/-- `selectAnswer`'s settlement handlers never touch the busy flag. -/
theorem submitSettled_isLoading (a : String) (r : SubmitResult) (s : ClientState) :
    (submitSettled a r s).isLoading = s.isLoading := by
  cases r <;> rfl

/-- When a fetch is pending, `takeFetch` finds one. -/
theorem takeFetch_of_mem {l : List PendingOp} (h : PendingOp.fetchQ ∈ l) :
    ∃ rest, takeFetch l = some rest := by
  induction l with
  | nil => cases h
  | cons x t ih =>
      cases x with
      | fetchQ => exact ⟨t, rfl⟩
      | submitA a =>
          have h' : PendingOp.fetchQ ∈ t := by
            rcases List.mem_cons.mp h with h0 | h0
            · cases h0
            · exact h0
          obtain ⟨r, hr⟩ := ih h'
          exact ⟨.submitA a :: r, by simp [takeFetch, hr]⟩

/-- When a submission is pending, `takeSubmit` finds one. -/
theorem takeSubmit_of_mem {l : List PendingOp} {a : String}
    (h : PendingOp.submitA a ∈ l) :
    ∃ x, takeSubmit l = some x := by
  induction l with
  | nil => cases h
  | cons y t ih =>
      cases y with
      | submitA b => exact ⟨(b, t), rfl⟩
      | fetchQ =>
          have h' : PendingOp.submitA a ∈ t := by
            rcases List.mem_cons.mp h with h0 | h0
            · cases h0
            · exact h0
          obtain ⟨x, hx⟩ := ih h'
          exact ⟨(x.1, .fetchQ :: x.2), by simp [takeSubmit, hx]⟩

/-- C1: at no reachable state are two question-fetch operations, two
answer-submission operations, or one of each in flight simultaneously
(the pending list never holds more than one operation); when the busy
flag is up, the start, next and option clicks are no-ops; and the busy
flag is down after a pending question fetch or a pending answer
submission settles, however it settled. -/
theorem no_concurrent_requests (s : ClientState) (h : Reachable s) :
    s.pending.length ≤ 1
    ∧ (s.isLoading = true →
        step s Event.clickStart = s ∧ step s Event.clickNext = s
        ∧ ∀ i, step s (Event.clickOption i) = s)
    ∧ (PendingOp.fetchQ ∈ s.pending →
        ∀ r, (step s (Event.fetchDone r)).isLoading = false)
    ∧ (∀ a, PendingOp.submitA a ∈ s.pending →
        ∀ r, (step s (Event.submitDone r)).isLoading = false) := by
  obtain ⟨h1, h2, h3, h4, h5⟩ := reachable_inv h
  refine ⟨h1, ?_, ?_, ?_⟩
  · intro hl
    refine ⟨?_, ?_, ?_⟩
    · simp only [step]
      split
      · rfl
      · simp [startQuiz, loadNextQuestion, hl]
    · simp only [step]
      split
      · rfl
      · simp [loadNextQuestion, hl]
    · intro i
      simp only [step]
      cases hg : s.options.get? i with
      | none => rfl
      | some b =>
          show (if b.disabled = true then s else selectAnswer b.text s) = s
          split
          · rfl
          · simp [selectAnswer, hl]
  · intro hmem r
    obtain ⟨rest, hrest⟩ := takeFetch_of_mem hmem
    simp only [step, hrest]
    exact fetchSettled_isLoading r _
  · intro a hmem r
    have hload : s.isLoading = false := by
      cases hB : s.isLoading
      · rfl
      · have hf := h2.mp hB
        have hp := length_le_one_eq_singleton h1 hmem
        rw [hp] at hf
        simp at hf
    obtain ⟨x, hx⟩ := takeSubmit_of_mem hmem
    simp only [step, hx]
    rw [submitSettled_isLoading]
    exact hload

/-- Witness for C1 at a concrete reachable state (start clicked, one fetch
in flight). -/
theorem no_concurrent_requests_witness :
    (step initState Event.clickStart).pending.length ≤ 1 :=
  (no_concurrent_requests (step initState Event.clickStart)
    (Reachable.step initState Event.clickStart
      (Reachable.init initState ⟨rfl, rfl, rfl, rfl⟩))).1

/-- C2 (counterexample showing the code bug): when `/get_question` settles
with the payload `{error: "rate limited"}`, the generic error state is
shown and the start and hint controls are re-enabled, but the next
control — although relabelled "Try Again" — is left disabled
(`enableButtons` hardcodes `nextButton.disabled = true`), so the claimed
"next remains clickable for retry" does not hold. -/
theorem fetch_failure_leaves_next_disabled :
    fetchFailState.resultText = "An error occurred. Please try again."
    ∧ fetchFailState.resultHidden = false
    ∧ fetchFailState.startDisabled = false
    ∧ fetchFailState.hintDisabled = false
    ∧ fetchFailState.nextLabel = "Try Again"
    ∧ fetchFailState.nextDisabled = true :=
  ⟨rfl, rfl, rfl, rfl, rfl, rfl⟩

/-- C3 (counterexample showing the code bug): selecting an answer disables
every option control at once, but when the `/check_answer` request fails
the error handler leaves the next control disabled — it was disabled when
the answer was selected and is still disabled after the failed
settlement, so in this cycle "next" is never enabled, against the claim
that it is enabled exactly once regardless of success or failure. -/
theorem submit_failure_never_enables_next :
    (∀ b ∈ osakaPickedState.options, b.disabled = true)
    ∧ osakaPickedState.nextDisabled = true
    ∧ submitRejectedState.nextDisabled = true
    ∧ (∀ b ∈ submitRejectedState.options, b.disabled = true)
    ∧ submitRejectedState.resultText = "An error occurred. Please try again." := by
  refine ⟨?_, rfl, rfl, ?_, rfl⟩ <;> decide

/-- C5: on the spec's worked example — question "Capital of Japan?" with
options Kyoto/Osaka/Tokyo/Hiroshima and correct answer Tokyo — selecting
"Osaka" and receiving `is_correct = false` yields the exact message
"❌ Incorrect. The correct answer is Tokyo.", the Tokyo option marked
`correct-option`, the Osaka option marked `incorrect-option`, and no other
option marked. -/
theorem japan_example_feedback :
    answerCheckedState.resultText = "❌ Incorrect. The correct answer is Tokyo."
    ∧ answerCheckedState.options.map (fun b => (b.text, b.correctClass, b.incorrectClass))
        = [("Kyoto", false, false), ("Osaka", false, true),
           ("Tokyo", true, false), ("Hiroshima", false, false)] :=
  ⟨rfl, rfl⟩

/-- The `correct-option` markings after the two marking passes count the
occurrences of the correct answer among the option texts. -/
theorem marked_countP (data : AnswerResult) (sel : String) (l : List String) :
    ((highlightAnswers data.correct_answer sel
        (showResultFeedbackMark data sel (createOptionButtons l))).countP
          (fun b => b.correctClass)) = l.count data.correct_answer := by
  induction l with
  | nil => rfl
  | cons o t ih =>
      simp only [createOptionButtons, showResultFeedbackMark, highlightAnswers] at ih ⊢
      simp only [List.map_cons, List.countP_cons, List.count_cons]
      rw [ih]
      congr 1
      by_cases hoc : (o == data.correct_answer) = true <;>
        by_cases hos : (o == sel) = true <;>
        by_cases hic : data.is_correct = true <;>
        simp [hoc, hos, hic]

/-- C4: for a fetched question whose options contain the server-reported
correct answer exactly once (the well-formedness the claim presupposes by
naming "the one whose text equals the server-reported correct answer"),
after the submission handlers run — `showResultFeedback`'s marking loop
followed by `highlightAnswers` — exactly one option button carries the
`correct-option` class, and a button carries it exactly when its text is
the server-reported correct answer. -/
theorem exactly_one_option_marked_correct (q : QuestionPayload) (data : AnswerResult)
    (sel : String) (hcount : q.options.count data.correct_answer = 1) :
    ((highlightAnswers data.correct_answer sel
        (showResultFeedbackMark data sel (createOptionButtons q.options))).countP
          (fun b => b.correctClass)) = 1
    ∧ ∀ b ∈ highlightAnswers data.correct_answer sel
        (showResultFeedbackMark data sel (createOptionButtons q.options)),
        (b.correctClass = true ↔ b.text = data.correct_answer) := by
  constructor
  · rw [marked_countP]
    exact hcount
  · intro b hb
    simp only [createOptionButtons, showResultFeedbackMark, highlightAnswers,
      List.map_map, List.mem_map, Function.comp] at hb
    obtain ⟨o, _, hbo⟩ := hb
    subst hbo
    by_cases hoc : (o == data.correct_answer) = true
    · have hoe : o = data.correct_answer := by
        exact eq_of_beq hoc
      by_cases hos : (o == sel) = true <;> by_cases hic : data.is_correct = true <;>
        simp [hoc, hos, hic, hoe]
    · have hoe : ¬ o = data.correct_answer := by
        intro he
        rw [he] at hoc
        simp at hoc
      by_cases hos : (o == sel) = true <;> by_cases hic : data.is_correct = true <;>
        simp [hoc, hos, hic, hoe]

/-- Witness for C4 on the worked example's question and reply. -/
theorem exactly_one_option_marked_correct_witness :
    japanPayload.options.count tokyoWrongResult.correct_answer = 1
    ∧ ((highlightAnswers tokyoWrongResult.correct_answer "Osaka"
        (showResultFeedbackMark tokyoWrongResult "Osaka"
          (createOptionButtons japanPayload.options))).countP
          (fun b => b.correctClass)) = 1 :=
  ⟨by decide,
   (exactly_one_option_marked_correct japanPayload tokyoWrongResult "Osaka" (by decide)).1⟩

/-- C6: for every `/get_history` payload with a nonempty history list, the
rendered history is exactly the server-provided list reversed (newest
first), item by item: the i-th rendered item displays the question, user
answer, correct answer, difficulty and formatted time of the
(n-1-i)-th server entry. -/
theorem history_renders_reversed (fmt : String → String) (data : HistoryData)
    (h : data.history ≠ []) :
    renderHistory fmt data
        = HistoryListView.items ((data.history.reverse).map (historyItemView fmt))
    ∧ ((data.history.reverse).map (historyItemView fmt)).length = data.history.length
    ∧ ∀ i (hi : i < data.history.length),
        ((data.history.reverse).map (historyItemView fmt)).get ⟨i, by simpa using hi⟩
          = historyItemView fmt
              (data.history.get ⟨data.history.length - 1 - i, by omega⟩) := by
  have hne : (data.history.length != 0) = true := by
    simpa [bne_iff_ne, List.length_eq_zero] using h
  refine ⟨?_, by simp, ?_⟩
  · simp only [renderHistory, jsSlice, List.map_id, hne, if_true]
  · intro i hi
    rw [List.get_eq_getElem, List.get_eq_getElem, List.getElem_map, List.getElem_reverse]

/-- Witness for C6 at a concrete two-entry payload. -/
theorem history_renders_reversed_witness :
    sampleHistory.history ≠ []
    ∧ renderHistory id sampleHistory
        = HistoryListView.items ((sampleHistory.history.reverse).map (historyItemView id)) :=
  ⟨by decide, (history_renders_reversed id sampleHistory (by decide)).1⟩

/-- C7: the hint control acts at most once per question — clicking it
twice equals clicking it once from any state; on a question without a
truthy hint (no current question, no hint field, or an empty hint) the
click leaves the whole state unchanged; and on a question with a hint,
the first click with the control enabled reveals exactly the hint text
and disables the control. -/
theorem hint_at_most_once (s : ClientState) :
    step (step s Event.clickHint) Event.clickHint = step s Event.clickHint
    ∧ (strTruthy (s.currentQuestion.bind QuestionPayload.hint) = false →
        step s Event.clickHint = s)
    ∧ (∀ hintStr, s.currentQuestion.bind QuestionPayload.hint = some hintStr →
        hintStr ≠ "" → s.hintDisabled = false →
        step s Event.clickHint
          = { s with hintText := hintStr, hintHidden := false, hintDisabled := true }) := by
  have hstep : ∀ t : ClientState,
      step t Event.clickHint = if t.hintDisabled = true then t else showHint t :=
    fun t => rfl
  refine ⟨?_, ?_, ?_⟩
  · by_cases hd : s.hintDisabled = true
    · rw [hstep s, if_pos hd, hstep s, if_pos hd]
    · rw [hstep s, if_neg hd]
      cases hq : s.currentQuestion.bind QuestionPayload.hint with
      | none =>
          have he : showHint s = s := by simp [showHint, hq]
          rw [he, hstep s, if_neg hd, he]
      | some hh =>
          by_cases hhe : (hh == "") = true
          · have he : showHint s = s := by simp [showHint, hq, hhe]
            rw [he, hstep s, if_neg hd, he]
          · have he : showHint s
                = { s with hintText := hh, hintHidden := false, hintDisabled := true } := by
              simp [showHint, hq, hhe]
            rw [he, hstep]
            simp
  · intro hf
    by_cases hd : s.hintDisabled = true
    · rw [hstep, if_pos hd]
    · rw [hstep, if_neg hd]
      cases hq : s.currentQuestion.bind QuestionPayload.hint with
      | none => simp [showHint, hq]
      | some hh =>
          rw [hq] at hf
          simp only [strTruthy, bne_eq_false_iff_eq] at hf
          simp [showHint, hq, hf]
  · intro hintStr hq hne hd
    rw [hstep, if_neg (by simp [hd])]
    simp [showHint, hq, hne]

/-- Witness for C7: on the loaded example question the first hint click
reveals the hint and disables the control; before any question the click
is a no-op. -/
theorem hint_at_most_once_witness :
    step japanLoadedState Event.clickHint
        = { japanLoadedState with
            hintText := "This city hosted the 2020 Summer Olympics.",
            hintHidden := false, hintDisabled := true }
    ∧ step initState Event.clickHint = initState :=
  ⟨(hint_at_most_once japanLoadedState).2.2
      "This city hosted the 2020 Summer Olympics." rfl (by decide) rfl,
   (hint_at_most_once initState).2.1 rfl⟩

/-- C8: for every image load — no URL yields the placeholder immediately
with no load started; a load error removes the spinner and shows the
placeholder; a timeout (the fixed 5000 ms of `displayImage`) removes the
spinner, shows the placeholder, and clears the image source, after which
every further image event (a late-arriving load included) is a no-op, so
the placeholder cannot be overwritten. -/
theorem image_fallback_on_failure (url : String) (hu : url ≠ "") :
    displayImage "" = { container := [ImgElem.placeholderElem], imgSrc := none,
                        timeoutArmed := false, settled := true }
    ∧ imageLoadTimeoutMs = 5000
    ∧ (imgStep (displayImage url) ImgEvent.error).container = [ImgElem.placeholderElem]
    ∧ ImgElem.spinner ∉ (imgStep (displayImage url) ImgEvent.error).container
    ∧ (imgStep (displayImage url) ImgEvent.timeout).container = [ImgElem.placeholderElem]
    ∧ ImgElem.spinner ∉ (imgStep (displayImage url) ImgEvent.timeout).container
    ∧ (imgStep (displayImage url) ImgEvent.timeout).imgSrc = some ""
    ∧ ∀ e, imgStep (imgStep (displayImage url) ImgEvent.timeout) e
        = imgStep (displayImage url) ImgEvent.timeout := by
  have hd : displayImage url
      = { container := [ImgElem.spinner], imgSrc := some url,
          timeoutArmed := true, settled := false } := by
    simp [displayImage, hu]
  rw [hd]
  refine ⟨rfl, rfl, ?_, ?_, ?_, ?_, ?_, ?_⟩
  · simp [imgStep, hu]
  · simp [imgStep, hu]
  · simp [imgStep]
  · simp [imgStep]
  · simp [imgStep]
  · intro e
    cases e <;> simp [imgStep]

/-- Witness for C8 at a concrete URL: after the timeout the placeholder
is shown. -/
theorem image_fallback_on_failure_witness :
    ("http://example.com/map.png" : String) ≠ ""
    ∧ (imgStep (displayImage "http://example.com/map.png") ImgEvent.timeout).container
        = [ImgElem.placeholderElem] :=
  ⟨by decide,
   (image_fallback_on_failure "http://example.com/map.png" (by decide)).2.2.2.2.1⟩

/-- `loadNextQuestion` leaves the stored current question unchanged. -/
@[simp] theorem loadNextQuestion_currentQuestion (s : ClientState) :
    (loadNextQuestion s).currentQuestion = s.currentQuestion := by
  unfold loadNextQuestion showLoadingState resetUIState disableButtons showImagePlaceholderS
  split <;> rfl

/-- `startQuiz` leaves the stored current question unchanged. -/
@[simp] theorem startQuiz_currentQuestion (s : ClientState) :
    (startQuiz s).currentQuestion = s.currentQuestion := by
  unfold startQuiz
  split <;> simp

/-- `selectAnswer` leaves the stored current question unchanged. -/
@[simp] theorem selectAnswer_currentQuestion (a : String) (s : ClientState) :
    (selectAnswer a s).currentQuestion = s.currentQuestion := by
  unfold selectAnswer disableOptions
  split <;> rfl

/-- `showHint` leaves the stored current question unchanged. -/
@[simp] theorem showHint_currentQuestion (s : ClientState) :
    (showHint s).currentQuestion = s.currentQuestion := by
  unfold showHint
  split
  · rfl
  · split <;> rfl

/-- `selectAnswer`'s settlement handlers leave the stored current question
unchanged. -/
@[simp] theorem submitSettled_currentQuestion (a : String) (r : SubmitResult) (s : ClientState) :
    (submitSettled a r s).currentQuestion = s.currentQuestion := by
  cases r <;> rfl

/-- `loadHistory`'s settlement handlers leave the stored current question
unchanged. -/
@[simp] theorem loadHistorySettled_currentQuestion (r : HistoryResult) (s : ClientState) :
    (loadHistorySettled r s).currentQuestion = s.currentQuestion := by
  cases r <;> rfl

/-- C9: the local fallback questions are dead data.  When a pending
question fetch settles with any failure (rejection, non-OK response, or a
payload carrying an error field) the stored current question is unchanged
and the generic error text is shown — no locally supplied question
appears; and across every event of the machine the stored current
question changes only to a question payload delivered by a successful
`/get_question` settlement, never to `getLocalFallbackQuestion`'s pick. -/
theorem local_fallback_never_served (s : ClientState) (r : FetchResult)
    (hmem : PendingOp.fetchQ ∈ s.pending) (hfail : r.failed = true) :
    (step s (Event.fetchDone r)).currentQuestion = s.currentQuestion
    ∧ (step s (Event.fetchDone r)).resultText = "An error occurred. Please try again."
    ∧ ∀ (t : ClientState) (e : Event),
        (step t e).currentQuestion = t.currentQuestion
        ∨ ∃ p, e = Event.fetchDone (FetchResult.payload p)
            ∧ strTruthy p.error = false
            ∧ (step t e).currentQuestion = some p := by
  obtain ⟨rest, hrest⟩ := takeFetch_of_mem hmem
  have hfs : ∀ u : ClientState, r.failed = true →
      (fetchSettled r u).currentQuestion = u.currentQuestion
      ∧ (fetchSettled r u).resultText = "An error occurred. Please try again." := by
    intro u hf
    cases r with
    | reject => exact ⟨rfl, rfl⟩
    | notOk => exact ⟨rfl, rfl⟩
    | payload p =>
        simp only [FetchResult.failed] at hf
        constructor <;> simp [fetchSettled, enableButtons, showErrorState, hf]
  refine ⟨?_, ?_, ?_⟩
  · simp only [step, hrest]
    exact (hfs _ hfail).1
  · simp only [step, hrest]
    exact (hfs _ hfail).2
  · intro t e
    cases e with
    | clickStart =>
        left
        simp only [step]
        split
        · rfl
        · simp
    | clickNext =>
        left
        simp only [step]
        split
        · rfl
        · simp
    | clickHint =>
        left
        simp only [step]
        split
        · rfl
        · simp
    | clickOption i =>
        left
        simp only [step]
        cases hg : t.options.get? i with
        | none => rfl
        | some b =>
            show (if b.disabled = true then t else selectAnswer b.text t).currentQuestion
              = t.currentQuestion
            split
            · rfl
            · simp
    | fetchDone fr =>
        cases htf : takeFetch t.pending with
        | none => left; simp only [step, htf]
        | some rest2 =>
            cases fr with
            | reject => left; simp only [step, htf]; rfl
            | notOk => left; simp only [step, htf]; rfl
            | payload p =>
                by_cases herr : strTruthy p.error = true
                · left
                  simp only [step, htf]
                  simp [fetchSettled, enableButtons, showErrorState, herr]
                · right
                  refine ⟨p, rfl, by simpa using herr, ?_⟩
                  simp only [step, htf]
                  simp [fetchSettled, enableButtons, herr]
    | submitDone sr =>
        left
        simp only [step]
        cases hts : takeSubmit t.pending with
        | none => rfl
        | some x => simp
    | historyDone hr =>
        left
        simp only [step]
        simp

/-- Witness for C9: a rejected fetch from the state with one fetch in
flight leaves the stored current question (none) unchanged. -/
theorem local_fallback_never_served_witness :
    PendingOp.fetchQ ∈ (step initState Event.clickStart).pending
    ∧ FetchResult.reject.failed = true
    ∧ (step (step initState Event.clickStart) (Event.fetchDone FetchResult.reject)).currentQuestion
        = (step initState Event.clickStart).currentQuestion :=
  ⟨by decide, rfl,
   (local_fallback_never_served (step initState Event.clickStart)
      FetchResult.reject (by decide) rfl).1⟩

/-- C10: invoking the hint control with no current question (before any
question was ever fetched) is a total no-op: the optional chain yields no
hint, `showHint` returns the state unchanged, and the click changes
nothing. -/
theorem hint_click_before_first_question (s : ClientState)
    (h : s.currentQuestion = none) :
    showHint s = s ∧ step s Event.clickHint = s := by
  have hs : showHint s = s := by simp [showHint, h]
  refine ⟨hs, ?_⟩
  simp only [step]
  split
  · rfl
  · exact hs

/-- Witness for C10 at the concrete initial state. -/
theorem hint_click_before_first_question_witness :
    initState.currentQuestion = none ∧ step initState Event.clickHint = initState :=
  ⟨rfl, (hint_click_before_first_question initState rfl).2⟩

end GeographyQuiz
